import Mathlib

/-!
Shallow embedding of the `autoruns` Volatility plugin (src/autoruns.py).

Strings are modelled as lists of natural-number character codes (`Str`),
matching Python 2 byte strings, where `.lower()`/`.upper()` act on the
ASCII range only.  Registry keys are modelled as a recursive tree of
names, last-write times, values and subkeys.  Python exceptions are
modelled with `PyResult`.
-/

namespace VolAutoruns

/-- A Python 2 byte string: a list of character codes. -/
abbrev Str := List Nat

/-- Embed a Lean string literal as a `Str` (list of code points). -/
def strLit (s : String) : Str := s.data.map Char.toNat

/-- Python `str.lower` on a single byte: ASCII uppercase maps down, all else fixed. -/
def pyLowerChar (c : Nat) : Nat := if 65 ≤ c ∧ c ≤ 90 then c + 32 else c

/-- Python `str.upper` on a single byte: ASCII lowercase maps up, all else fixed. -/
def pyUpperChar (c : Nat) : Nat := if 97 ≤ c ∧ c ≤ 122 then c - 32 else c

/-- Python `s.lower()`. -/
def pyLower (s : Str) : Str := s.map pyLowerChar

/-- Python `s.upper()`. -/
def pyUpper (s : Str) : Str := s.map pyUpperChar

/-- Fuel-bounded worker for `removeAll`; scans left to right, removing each
non-overlapping occurrence of `pat` (Python `s.replace(pat, '')`). -/
def removeAllAux (pat : Str) : Nat → Str → Str
  | 0, s => s
  | _ + 1, [] => []
  | fuel + 1, c :: rest =>
    if pat ≠ [] ∧ pat.isPrefixOf (c :: rest) then
      removeAllAux pat fuel (rest.drop (pat.length - 1))
    else
      c :: removeAllAux pat fuel rest

/-- Python `s.replace(pat, '')`: remove every (left-to-right, non-overlapping)
occurrence of `pat` from `s`. -/
def removeAll (pat s : Str) : Str := removeAllAux pat s.length s

/-- `sanitize_paths` from src/autoruns.py lines 92-101: lower-case, then strip
`%systemroot%\`, `\systemroot\`, `%windir%`, `\??\`, NUL (code 0),
double quote (code 34) and single quote (code 39). -/
def sanitize_paths (path : Str) : Str :=
  let p0 := pyLower path
  let p1 := removeAll (strLit "%systemroot%\\") p0
  let p2 := removeAll (strLit "\\systemroot\\") p1
  let p3 := removeAll (strLit "%windir%") p2
  let p4 := removeAll (strLit "\\??\\") p3
  let p5 := removeAll [0] p4
  let p6 := removeAll [34] p5
  removeAll [39] p6

/-- Python `pat in s` substring test. -/
def isSubstr (pat : Str) : Str → Bool
  | [] => pat.isEmpty
  | c :: rest => pat.isPrefixOf (c :: rest) || isSubstr pat rest

/-- One entry of the process inventory built by `get_dll_list`:
pid, truthiness of the PEB pointer, optional command line, and the
(optional) full path of each loaded module. -/
structure ProcessRecord where
  pid : Nat
  hasPeb : Bool
  cmdline : Option Str
  modules : List (Option Str)

/-- Python `x or default` for an optional string (`None` and `""` are falsy). -/
def strOrDefault (o : Option Str) (dflt : Str) : Str :=
  match o with
  | some s => if s = [] then dflt else s
  | none => dflt

/-- The pids appended for one process inside the loop of
`find_pids_for_imagepath` (command-line match first, then one per
matching loaded module). -/
def processHits (m : Str) (p : ProcessRecord) : List Nat :=
  (if p.hasPeb &&
      isSubstr (pyLower m)
        (sanitize_paths (pyLower (strOrDefault p.cmdline (strLit "[no cmdline]")))) then
    [p.pid]
   else []) ++
  p.modules.filterMap (fun d =>
    if isSubstr (pyLower m)
        (sanitize_paths (pyLower (strOrDefault d (strLit "[no dllname]")))) then
      some p.pid
    else none)

/-- `find_pids_for_imagepath` from src/autoruns.py lines 130-148: sanitize the
module path; if it is falsy return no pids, otherwise collect matching pids
over the inventory and collapse duplicates (`list(set(pids))`). -/
def find_pids_for_imagepath (inv : List ProcessRecord) (module : Str) : List Nat :=
  if sanitize_paths module = [] then []
  else ((inv.map (processHits (sanitize_paths module))).flatten).dedup

/-- A parsed registry key: name, last-write time (opaque tick count),
values (name, stringified data) in enumeration order, and subkeys. -/
inductive RegKey where
  | mk (name : Str) (lastWriteTime : Nat) (values : List (Str × Str)) (subkeys : List RegKey)

/-- The key's name. -/
def RegKey.name : RegKey → Str
  | .mk n _ _ _ => n

/-- The key's last-write timestamp. -/
def RegKey.lastWriteTime : RegKey → Nat
  | .mk _ t _ _ => t

/-- The key's values in enumeration order. -/
def RegKey.values : RegKey → List (Str × Str)
  | .mk _ _ v _ => v

/-- The key's subkeys in enumeration order. -/
def RegKey.subkeys : RegKey → List RegKey
  | .mk _ _ _ s => s

/-- A Python dict of string keys/values, as an insertion-ordered
association list with unique keys. -/
abbrev Dict := List (Str × Str)

/-- `k in d` for a Python dict. -/
def dictHasKey (d : Dict) (k : Str) : Bool := d.any (fun p => decide (p.1 = k))

/-- `d[k] = v` for a Python dict: overwrite in place if the key exists,
append otherwise. -/
def dictInsert (d : Dict) (k v : Str) : Dict :=
  if dictHasKey d k then d.map (fun p => if p.1 = k then (k, v) else p)
  else d ++ [(k, v)]

/-- `d.get(k)` for a Python dict (`None` when absent). -/
def dictGet (d : Dict) (k : Str) : Option Str :=
  (d.find? (fun p => decide (p.1 = k))).map (fun p => p.2)

/-- `d.get(k, dflt)` for a Python dict. -/
def dictGetD (d : Dict) (k dflt : Str) : Str := (dictGet d k).getD dflt

/-- `dict_for_key` from src/autoruns.py lines 156-171: build the dict of a
key's values (later values with the same name overwrite earlier ones). -/
def dict_for_key (key : RegKey) : Dict :=
  key.values.foldl (fun d p => dictInsert d p.1 p.2) []

/-- Result of running a piece of Python code: a value, or a raised exception. -/
inductive PyResult (α : Type) where
  | ok (val : α)
  | exn
deriving DecidableEq

/-- `parse_autoruns_key` from src/autoruns.py lines 328-337: for each dict
entry whose data is neither empty nor a lone NUL, emit
(value name, NUL-stripped data, correlated pids); pids are computed from
the raw (un-stripped) data. -/
def parse_autoruns_key (inv : List ProcessRecord) (key : RegKey) :
    List (Str × Str × List Nat) :=
  (dict_for_key key).filterMap (fun p =>
    if p.2 = [] ∨ p.2 = [0] then none
    else some (p.1, removeAll [0] p.2, find_pids_for_imagepath inv p.2))

/-- Python `int(s)` on a digit string: optional sign followed by decimal
digits; anything else raises (modelled as `none`). -/
def digitsVal (s : Str) : Option Nat :=
  if s = [] then none
  else if s.all (fun c => decide (48 ≤ c ∧ c ≤ 57)) then
    some (s.foldl (fun a c => a * 10 + (c - 48)) 0)
  else none

/-- Python `int(s)` for a (possibly signed) decimal string. -/
def pyInt (s : Str) : Option Int :=
  match s with
  | 43 :: rest => (digitsVal rest).map (fun n => (n : Int))
  | 45 :: rest => (digitsVal rest).map (fun n => -(n : Int))
  | _ => (digitsVal s).map (fun n => (n : Int))

/-- The `service_types` lookup table from src/autoruns.py lines 74-83. -/
def service_types : List (Int × Str) :=
  [(1, strLit "Kernel driver"),
   (2, strLit "File system driver"),
   (4, strLit "Argumetns for adapter"),
   (8, strLit "File system driver"),
   (16, strLit "Own_Process"),
   (32, strLit "Share_Process"),
   (256, strLit "Interactive"),
   (272, strLit "Interactive"),
   (288, strLit "Share_process Interactive"),
   (-1, strLit "Unknown")]

/-- The `service_startup` lookup table from src/autoruns.py lines 85-90. -/
def service_startup : List (Int × Str) :=
  [(0, strLit "Boot Start"),
   (1, strLit "System Start"),
   (2, strLit "Auto Start"),
   (3, strLit "Manual"),
   (4, strLit "Disabled"),
   (-1, strLit "Unknown")]

/-- Python `table[k]` on an int-keyed dict: `none` models a `KeyError`. -/
def intDictGet (d : List (Int × Str)) (k : Int) : Option Str :=
  (d.find? (fun p => decide (p.1 = k))).map (fun p => p.2)

/-- `int(service_dict.get("Start", -1))`: missing defaults to -1, a present
value is parsed by `int` and raises on non-numeric data. -/
def startupOf (d : Dict) : PyResult Int :=
  match dictGet d (strLit "Start") with
  | none => .ok (-1)
  | some s =>
    match pyInt s with
    | some n => .ok n
    | none => .exn

/-- `int(service_dict.get("Type", -1))`, same shape as `startupOf`. -/
def typeOf (d : Dict) : PyResult Int :=
  match dictGet d (strLit "Type") with
  | none => .ok (-1)
  | some s =>
    match pyInt s with
    | some n => .ok n
    | none => .exn

/-- `service_dict.get('DisplayName', "Unknown").replace('\x00', '')`. -/
def displayNameOf (d : Dict) : Str :=
  removeAll [0] (dictGetD d (strLit "DisplayName") (strLit "Unknown"))

/-- `service_dict.get("ImagePath", "Unknown").replace('\x00', '')`. -/
def imagePathOf (d : Dict) : Str :=
  removeAll [0] (dictGetD d (strLit "ImagePath") (strLit "Unknown"))

/-- The first subkey named `Parameters` (the loop at lines 239-243). -/
def findParameters (key : RegKey) : Option RegKey :=
  key.subkeys.find? (fun sub => decide (sub.name = strLit "Parameters"))

/-- The `entry` string computed at lines 244-250: the `ServiceDll` value,
suffixed with ` (ServiceMain)` when a truthy `ServiceMain` exists, then
NUL-stripped; `none` when `ServiceDll` is not defined. -/
def svcEntryOf (params : Dict) : Option Str :=
  match dictGet params (strLit "ServiceDll") with
  | none => none
  | some dll =>
    let e :=
      match dictGet params (strLit "ServiceMain") with
      | some m => if m = [] then dll else dll ++ strLit " (" ++ m ++ strLit ")"
      | none => dll
    some (removeAll [0] e)

/-- The record tuple returned by `parse_service_key` (line 259). -/
structure ServiceRecord where
  service_name : Str
  timestamp : Nat
  display_name : Str
  startup_kind : Str
  service_kind : Str
  image_path : Str
  loaded_entry : Option Str
  pids : List Nat
deriving DecidableEq

/-- The `Parameters` subkey looked up at lines 237-243: only consulted when
the (NUL-stripped) image path contains the marker `svchost.exe -k`. -/
def svcPsub (key : RegKey) : Option RegKey :=
  if isSubstr (strLit "svchost.exe -k") (imagePathOf (dict_for_key key)) then
    findParameters key
  else none

/-- The record's timestamp: the `Parameters` subkey's last-write time as soon
as that subkey was found (line 242), the service key's own time otherwise. -/
def svcTimestamp (key : RegKey) : Nat :=
  match svcPsub key with
  | some sub => sub.lastWriteTime
  | none => key.lastWriteTime

/-- The dict of the `Parameters` subkey when it was consulted and found,
empty otherwise. -/
def svcParams (key : RegKey) : Dict :=
  match svcPsub key with
  | some sub => dict_for_key sub
  | none => []

/-- The pid correlation at lines 254-258: on a truthy `entry`, correlate on
the raw `ServiceDll` data; otherwise correlate on the image path. -/
def svcPids (inv : List ProcessRecord) (key : RegKey) : List Nat :=
  match svcEntryOf (svcParams key) with
  | some e =>
    if e = [] then find_pids_for_imagepath inv (imagePathOf (dict_for_key key))
    else find_pids_for_imagepath inv ((dictGet (svcParams key) (strLit "ServiceDll")).getD [])
  | none => find_pids_for_imagepath inv (imagePathOf (dict_for_key key))

/-- `parse_service_key` from src/autoruns.py lines 225-259. -/
def parse_service_key (inv : List ProcessRecord) (key : RegKey) :
    PyResult (Option ServiceRecord) :=
  match startupOf (dict_for_key key) with
  | .exn => .exn
  | .ok startup =>
    match typeOf (dict_for_key key) with
    | .exn => .exn
    | .ok type =>
      if startup = 0 ∨ startup = 1 ∨ startup = 2 then
        match intDictGet service_startup startup, intDictGet service_types type with
        | some sk, some tk =>
          .ok (some ⟨key.name, svcTimestamp key, displayNameOf (dict_for_key key), sk, tk,
                     imagePathOf (dict_for_key key), svcEntryOf (svcParams key),
                     svcPids inv key⟩)
        | _, _ => .exn
      else .ok none

/-- One iteration of the `get_services` loop (lines 269-274): a raised
exception aborts, a falsy record is dropped, and in non-verbose mode records
whose image path mentions `system32` or is `Unknown` are suppressed. -/
def servicesStep (inv : List ProcessRecord) (verbose : Bool)
    (acc : PyResult (List ServiceRecord)) (key : RegKey) : PyResult (List ServiceRecord) :=
  match acc with
  | .exn => .exn
  | .ok l =>
    match parse_service_key inv key with
    | .exn => .exn
    | .ok none => .ok l
    | .ok (some r) =>
      if verbose ||
         (!(isSubstr (strLit "system32") (pyLower r.image_path)) &&
          !(decide (r.image_path = strLit "Unknown"))) then
        .ok (l ++ [r])
      else .ok l

/-- `get_services` from src/autoruns.py lines 261-276. -/
def get_services (inv : List ProcessRecord) (verbose : Bool)
    (serviceKeys : List RegKey) : PyResult (List ServiceRecord) :=
  serviceKeys.foldl (servicesStep inv verbose) (.ok [])

/-- `get_appinit_dlls` from src/autoruns.py lines 173-182, as a function of
the `AppInit_DLLs` value data: NUL-strip, split on spaces (code 32), and
return the list when it is non-empty (`None` otherwise). -/
def get_appinit_dlls (appinit_values : Str) : Option (List Str) :=
  let appinit_dlls := (removeAll [0] appinit_values).splitOn 32
  if appinit_dlls.length > 0 then some appinit_dlls else none

/-- `WINLOGON_NOTIFICATION_EVENTS` from src/autoruns.py lines 42-51. -/
def WINLOGON_NOTIFICATION_EVENTS : List Str :=
  [strLit "Lock", strLit "Logoff", strLit "Logon", strLit "Shutdown",
   strLit "StartScreenSaver", strLit "StartShell", strLit "Startup",
   strLit "StopScreenSaver", strLit "Unlock"]

/-- The tuple returned by `parse_winlogon_registration_key` (line 223). -/
structure WinlogonRegistration where
  dll : Str
  events : List (Str × Str)
  timestamp : Nat
  pids : List Nat
deriving DecidableEq

/-- The loop at lines 217-219: scan the dict in order and keep the data of
the last key whose lower-cased name is `dllname`; `none` models the
unbound-name error when no such key exists. -/
def loopDllName (d : Dict) : Option Str :=
  d.foldl (fun acc p => if pyLower p.1 = strLit "dllname" then some p.2 else acc) none

/-- The event list built at line 215: for each of the nine fixed event
names present in the dict, the pair (event, NUL-stripped handler). -/
def winlogonEvents (d : Dict) : List (Str × Str) :=
  WINLOGON_NOTIFICATION_EVENTS.filterMap (fun evt =>
    (dictGet d evt).map (fun dta => (evt, removeAll [0] dta)))

/-- `parse_winlogon_registration_key` from src/autoruns.py lines 213-223:
collect the registered events in the fixed event order, then return
(NUL-stripped dll name, events, key time, pids correlated on the raw dll
name); when no value name lower-cases to `dllname` the name `dllname` is
unbound and the function raises. -/
def parse_winlogon_registration_key (inv : List ProcessRecord) (key : RegKey) :
    PyResult WinlogonRegistration :=
  match loopDllName (dict_for_key key) with
  | none => .exn
  | some dllname =>
    .ok ⟨removeAll [0] dllname, winlogonEvents (dict_for_key key), key.lastWriteTime,
         find_pids_for_imagepath inv dllname⟩

/-- Projection: does a `parse_service_key` result carry a record? -/
def isRecord : PyResult (Option ServiceRecord) → Bool
  | .ok (some _) => true
  | _ => false

/-- Projection of the record's timestamp, when one was produced. -/
def recTimestamp : PyResult (Option ServiceRecord) → Option Nat
  | .ok (some r) => some r.timestamp
  | _ => none

/-- Projection of the record's service name, when one was produced. -/
def recName : PyResult (Option ServiceRecord) → Option Str
  | .ok (some r) => some r.service_name
  | _ => none

/-- Projection of the record's display name, when one was produced. -/
def recDisplay : PyResult (Option ServiceRecord) → Option Str
  | .ok (some r) => some r.display_name
  | _ => none

/-- Projection of the record's startup kind, when one was produced. -/
def recStartupKind : PyResult (Option ServiceRecord) → Option Str
  | .ok (some r) => some r.startup_kind
  | _ => none

/-- Projection of the record's service kind, when one was produced. -/
def recServiceKind : PyResult (Option ServiceRecord) → Option Str
  | .ok (some r) => some r.service_kind
  | _ => none

/-- Projection of the record's image path, when one was produced. -/
def recImage : PyResult (Option ServiceRecord) → Option Str
  | .ok (some r) => some r.image_path
  | _ => none

/-- Projection of the record's loaded entry, when one was produced. -/
def recEntry : PyResult (Option ServiceRecord) → Option (Option Str)
  | .ok (some r) => some r.loaded_entry
  | _ => none

/-- Projection of the record's pid list, when one was produced. -/
def recPids : PyResult (Option ServiceRecord) → Option (List Nat)
  | .ok (some r) => some r.pids
  | _ => none

/-- Turn a `PyResult` into an `Option`. -/
def pyToOption : PyResult α → Option α
  | .ok v => some v
  | .exn => none

/-! ### Concrete fixtures used by counterexamples and witnesses -/

/-- A Run key holding `MyApp = "C:\Apps\app.exe --flag"`. -/
def run1Key : RegKey :=
  .mk (strLit "Run") 50 [(strLit "MyApp", strLit "C:\\Apps\\app.exe --flag")] []

/-- An inventory with PID 1234 whose command line is `C:\Apps\app.exe --flag`. -/
def run1Inv : List ProcessRecord :=
  [⟨1234, true, some (strLit "C:\\Apps\\app.exe --flag"), []⟩]

/-- A service key whose `Start` data is the non-numeric string `abc`. -/
def svcBadStartKey : RegKey :=
  .mk (strLit "BadSvc") 5 [(strLit "Start", strLit "abc")] []

/-- A service key with `Start = "2"` and no `Type` value. -/
def svcMissingTypeKey : RegKey :=
  .mk (strLit "NoTypeSvc") 5 [(strLit "Start", strLit "2")] []

/-- A service key with `Start = "3"` (Manual). -/
def svcManualKey : RegKey :=
  .mk (strLit "ManualSvc") 5 [(strLit "Start", strLit "3")] []

/-- A `Parameters` subkey that defines no `ServiceDll`. -/
def paramsNoDllSub : RegKey :=
  .mk (strLit "Parameters") 200 [(strLit "Other", strLit "y")] []

/-- A svchost-hosted service whose `Parameters` subkey lacks `ServiceDll`. -/
def svcParamsNoDllKey : RegKey :=
  .mk (strLit "HostedSvc") 100
    [(strLit "ImagePath", strLit "svchost.exe -k netsvcs"), (strLit "Start", strLit "2")]
    [paramsNoDllSub]

/-- A `Parameters` subkey defining `ServiceDll`. -/
def paramsDllSub : RegKey :=
  .mk (strLit "Parameters") 300 [(strLit "ServiceDll", strLit "c:\\windows\\svc.dll")] []

/-- A svchost-hosted service whose `Parameters` subkey defines `ServiceDll`. -/
def svcParamsDllKey : RegKey :=
  .mk (strLit "HostedSvc2") 100
    [(strLit "ImagePath", strLit "svchost.exe -k netsvcs"), (strLit "Start", strLit "2")]
    [paramsDllSub]

/-- A one-process inventory matching `app.exe`. -/
def c8Inv : List ProcessRecord := [⟨1234, true, some (strLit "app.exe run"), []⟩]

/-- A fresh process whose command line also contains `app.exe`. -/
def c8New : ProcessRecord := ⟨5678, true, some (strLit "app.exe other"), []⟩

/-- A Winlogon Notify subkey with no value named (any casing of) `DllName`. -/
def notifyNoDllKey : RegKey :=
  .mk (strLit "pkg") 7 [(strLit "Logon", strLit "handler")] []

/-- A Winlogon Notify subkey with two values whose names lower-case to
`dllname`. -/
def notifyTwoDllKey : RegKey :=
  .mk (strLit "pkg2") 7
    [(strLit "DllName", strLit "a.dll"), (strLit "DLLNAME", strLit "b.dll")] []

/-! ### Helper lemmas about the string model -/

theorem mem_removeAllAux {pat : Str} {c : Nat} :
    ∀ {fuel : Nat} {s : Str}, c ∈ removeAllAux pat fuel s → c ∈ s := by
  intro fuel
  induction fuel with
  | zero =>
    intro s h
    simp only [removeAllAux] at h
    exact h
  | succ n ih =>
    intro s h
    match s with
    | [] => simp [removeAllAux] at h
    | a :: rest =>
      rw [removeAllAux] at h
      split at h
      · exact List.mem_cons_of_mem a (List.drop_subset _ _ (ih h))
      · rcases List.mem_cons.mp h with h1 | h2
        · exact h1 ▸ List.mem_cons_self a rest
        · exact List.mem_cons_of_mem a (ih h2)

theorem mem_removeAll {pat s : Str} {c : Nat} (h : c ∈ removeAll pat s) : c ∈ s :=
  mem_removeAllAux h

theorem mem_removeAllAux_single {x c : Nat} :
    ∀ {fuel : Nat} {s : Str}, s.length ≤ fuel →
      c ∈ removeAllAux [x] fuel s → c ∈ s ∧ c ≠ x := by
  intro fuel
  induction fuel with
  | zero =>
    intro s hlen h
    have : s = [] := List.length_eq_zero.mp (Nat.le_zero.mp hlen)
    subst this
    simp [removeAllAux] at h
  | succ n ih =>
    intro s hlen h
    match s with
    | [] => simp [removeAllAux] at h
    | a :: rest =>
      rw [removeAllAux] at h
      split at h
      · rename_i hcond
        have hax : x = a := by
          have hpre := hcond.2
          simp [List.isPrefixOf] at hpre
          exact hpre
        simp only [List.length_cons] at hlen
        rw [show ([x] : Str).length - 1 = 0 from rfl, List.drop_zero] at h
        have hr := ih (by omega) h
        exact ⟨List.mem_cons_of_mem a hr.1, hr.2⟩
      · rename_i hcond
        have hax : ¬(x = a) := by
          intro he
          exact hcond ⟨by simp, by simp [List.isPrefixOf, he]⟩
        simp only [List.length_cons] at hlen
        rcases List.mem_cons.mp h with h1 | h2
        · exact ⟨List.mem_cons.mpr (Or.inl h1), fun he => hax (by rw [← he]; exact h1)⟩
        · have hr := ih (by omega) h2
          exact ⟨List.mem_cons_of_mem a hr.1, hr.2⟩

theorem mem_removeAll_single {x c : Nat} {s : Str} (h : c ∈ removeAll [x] s) :
    c ∈ s ∧ c ≠ x :=
  mem_removeAllAux_single (Nat.le_refl _) h

theorem not_upper_of_mem_pyLower {s : Str} {c : Nat} (h : c ∈ pyLower s) :
    ¬(65 ≤ c ∧ c ≤ 90) := by
  rcases List.mem_map.mp h with ⟨d, _, rfl⟩
  unfold pyLowerChar
  split <;> omega

theorem pyLowerChar_pyUpperChar (c : Nat) :
    pyLowerChar (pyUpperChar c) = pyLowerChar c := by
  unfold pyLowerChar pyUpperChar
  split_ifs <;> omega

theorem pyLower_pyUpper (s : Str) : pyLower (pyUpper s) = pyLower s := by
  unfold pyLower pyUpper
  rw [List.map_map]
  exact List.map_congr_left (fun c _ => pyLowerChar_pyUpperChar c)

/-! ### C3: sanitize_paths — case-insensitive, but not idempotent -/

/-- C3 (counterexample): the claim "normalize(normalize(s)) == normalize(s)
for every string s" is false: removing `%systemroot%\` from
`%system%systemroot%\root%\` creates a fresh occurrence of the token, so a
second pass removes more. -/
theorem sanitize_paths_not_idempotent :
    sanitize_paths (strLit "%system%systemroot%\\root%\\") = strLit "%systemroot%\\" ∧
    sanitize_paths (sanitize_paths (strLit "%system%systemroot%\\root%\\")) = strLit "" ∧
    strLit "%systemroot%\\" ≠ strLit "" := by decide

/-- C3 (amended): `sanitize_paths` is case-insensitive — it agrees on a
string and its ASCII upper-cased form — but it is not idempotent. -/
theorem sanitize_paths_case_insensitive (s : Str) :
    sanitize_paths (pyUpper s) = sanitize_paths s := by
  simp only [sanitize_paths]
  rw [pyLower_pyUpper]

/-! ### C4: find_pids_for_imagepath — empty reference, set semantics -/

/-- C4: an empty reference path yields no pids, and for every reference path
the result list carries no duplicate PIDs (`list(set(pids))`). -/
theorem find_pids_empty_and_nodup (inv : List ProcessRecord) :
    find_pids_for_imagepath inv (strLit "") = [] ∧
    ∀ m : Str, (find_pids_for_imagepath inv m).Nodup := by
  refine ⟨rfl, fun m => ?_⟩
  by_cases h : sanitize_paths m = [] <;>
    simp [find_pids_for_imagepath, h, List.nodup_dedup]

/-! ### C9: characters never present in sanitize_paths output -/

/-- C9: the output of `sanitize_paths` contains no ASCII uppercase letter,
no NUL, no double quote and no single quote. -/
theorem sanitize_paths_char_safe (s : Str) (c : Nat) (hc : c ∈ sanitize_paths s) :
    ¬(65 ≤ c ∧ c ≤ 90) ∧ c ≠ 0 ∧ c ≠ 34 ∧ c ≠ 39 := by
  simp only [sanitize_paths] at hc
  have h39 := mem_removeAll_single hc
  have h34 := mem_removeAll_single h39.1
  have h0 := mem_removeAll_single h34.1
  have hmem : c ∈ pyLower s :=
    mem_removeAll (mem_removeAll (mem_removeAll (mem_removeAll h0.1)))
  exact ⟨not_upper_of_mem_pyLower hmem, h0.2, h34.2, h39.2⟩

/-- C9 (witness): instantiated at the string `A` and the character `a`. -/
theorem sanitize_paths_char_safe_witness :
    97 ∈ sanitize_paths (strLit "A") ∧
    (¬(65 ≤ 97 ∧ 97 ≤ 90) ∧ 97 ≠ 0 ∧ 97 ≠ 34 ∧ 97 ≠ 39) :=
  ⟨by decide, sanitize_paths_char_safe (strLit "A") 97 (by decide)⟩

/-! ### C1: the Run-Key round-trip scenario -/

/-- C1 (counterexample): on the claimed scenario the emitted `RunEntry`
carries the raw value data `C:\Apps\app.exe --flag`, not the lower-cased
normalization `c:\apps\app.exe --flag`; the code only strips NULs. -/
theorem run_key_target_not_normalized :
    (parse_autoruns_key run1Inv run1Key).map (fun e => e.2.1) =
      [strLit "C:\\Apps\\app.exe --flag"] ∧
    strLit "C:\\Apps\\app.exe --flag" ≠ strLit "c:\\apps\\app.exe --flag" := by decide

/-- C1 (amended): on the scenario of the claim, the Run-Key extractor emits
exactly one entry, `(MyApp, "C:\Apps\app.exe --flag", {1234})`: the target
path is the NUL-stripped raw data with its case preserved, and the pids are
exactly {1234}. -/
theorem run_key_roundtrip_amended :
    parse_autoruns_key run1Inv run1Key =
      [(strLit "MyApp", strLit "C:\\Apps\\app.exe --flag", [1234])] := by decide

/-! ### C6: AppInit_DLLs splitting -/

/-- C6 (counterexample): an empty `AppInit_DLLs` value yields the
one-element list containing the empty string (Python `"".split(' ')`),
not the empty list. -/
theorem appinit_empty_value_counterexample :
    get_appinit_dlls (strLit "") = some [strLit ""] ∧
    (some [strLit ""] : Option (List Str)) ≠ some [] := by decide

/-- C6 (amended): `AppInit_DLLs` data is NUL-stripped and split on spaces
preserving order, so `"a.dll b.dll\x00"` yields `["a.dll", "b.dll"]`; the
empty value yields `[""]` — a split always has at least one element, so the
function never returns `None` (and never the empty list). -/
theorem appinit_dlls_amended :
    get_appinit_dlls (strLit "a.dll b.dll" ++ [0]) =
      some [strLit "a.dll", strLit "b.dll"] ∧
    get_appinit_dlls (strLit "") = some [strLit ""] ∧
    ∀ s : Str, (get_appinit_dlls s).isSome = true := by
  refine ⟨by decide, by decide, fun s => ?_⟩
  have h : 0 < ((removeAll [0] s).splitOn 32).length :=
    List.length_pos.mpr (by
      simp only [List.splitOn]
      exact List.splitOnP_ne_nil _ _)
  simp [get_appinit_dlls, h]

/-! ### C8: monotonicity of find_pids_for_imagepath in the inventory -/

theorem mem_find_pids {inv : List ProcessRecord} {m : Str} {q : Nat} :
    q ∈ find_pids_for_imagepath inv m ↔
      ¬(sanitize_paths m = []) ∧ ∃ r ∈ inv, q ∈ processHits (sanitize_paths m) r := by
  rw [find_pids_for_imagepath]
  by_cases h : sanitize_paths m = []
  · simp [h]
  · rw [if_neg h]
    simp only [List.mem_dedup, List.mem_flatten, List.mem_map]
    constructor
    · rintro ⟨l, ⟨r, hr, rfl⟩, hql⟩
      exact ⟨h, r, hr, hql⟩
    · rintro ⟨-, r, hr, hql⟩
      exact ⟨processHits (sanitize_paths m) r, ⟨r, hr, rfl⟩, hql⟩

/-- C8: extending the inventory with one more process (in particular one
whose normalized command line contains the normalized reference path) never
removes a PID from the result of `find_pids_for_imagepath`. -/
theorem find_pids_monotonic (inv : List ProcessRecord) (p : ProcessRecord) (m : Str)
    (_hm : ¬(m = []))
    (_hc : isSubstr (pyLower (sanitize_paths m))
        (sanitize_paths (pyLower (strOrDefault p.cmdline (strLit "[no cmdline]")))) = true) :
    ∀ q ∈ find_pids_for_imagepath inv m, q ∈ find_pids_for_imagepath (inv ++ [p]) m := by
  intro q hq
  rcases mem_find_pids.mp hq with ⟨hne, r, hr, hhit⟩
  exact mem_find_pids.mpr ⟨hne, r, List.mem_append.mpr (Or.inl hr), hhit⟩

/-- C8 (witness): instantiated at a concrete inventory, new process and
reference path. -/
theorem find_pids_monotonic_witness :
    1234 ∈ find_pids_for_imagepath (c8Inv ++ [c8New]) (strLit "app.exe") :=
  find_pids_monotonic c8Inv c8New (strLit "app.exe") (by decide) (by decide) 1234 (by decide)

/-! ### C2: missing versus malformed Start/Type fields -/

/-- C2 (counterexample): a service whose `Start` data is the non-numeric
string `abc` makes `parse_service_key` raise (Python `int()` `ValueError`),
so the Service Extractor does not survive arbitrary string data in these
fields. -/
theorem service_malformed_start_raises :
    parse_service_key [] svcBadStartKey = PyResult.exn := by decide

/-- C2 (amended): a *missing* `Type` value is defaulted to the sentinel -1
and decoded as `Unknown`, and the service is still processed into a record;
but (per the counterexample) a non-integer `Start`/`Type` string raises out
of the extractor, as does an integer `Type` outside the lookup table. -/
theorem service_missing_type_defaults_unknown (inv : List ProcessRecord) (key : RegKey)
    (s : Str) (k : Int)
    (h1 : dictGet (dict_for_key key) (strLit "Start") = some s)
    (h2 : pyInt s = some k)
    (h3 : k = 0 ∨ k = 1 ∨ k = 2)
    (h4 : dictGet (dict_for_key key) (strLit "Type") = none) :
    isRecord (parse_service_key inv key) = true ∧
    recServiceKind (parse_service_key inv key) = some (strLit "Unknown") := by
  have hst : startupOf (dict_for_key key) = .ok k := by
    simp only [startupOf, h1, h2]
  have hty : typeOf (dict_for_key key) = .ok (-1) := by
    simp only [typeOf, h4]
  have htk : intDictGet service_types (-1) = some (strLit "Unknown") := by rfl
  rcases h3 with rfl | rfl | rfl
  · have hsk : intDictGet service_startup 0 = some (strLit "Boot Start") := by rfl
    simp [parse_service_key, hst, hty, hsk, htk, isRecord, recServiceKind]
  · have hsk : intDictGet service_startup 1 = some (strLit "System Start") := by rfl
    simp [parse_service_key, hst, hty, hsk, htk, isRecord, recServiceKind]
  · have hsk : intDictGet service_startup 2 = some (strLit "Auto Start") := by rfl
    simp [parse_service_key, hst, hty, hsk, htk, isRecord, recServiceKind]

/-- C2 (witness): instantiated at a service key with `Start = "2"` and no
`Type` value. -/
theorem service_missing_type_defaults_unknown_witness :
    isRecord (parse_service_key [] svcMissingTypeKey) = true ∧
    recServiceKind (parse_service_key [] svcMissingTypeKey) = some (strLit "Unknown") :=
  service_missing_type_defaults_unknown [] svcMissingTypeKey (strLit "2") 2
    (by decide) (by decide) (Or.inr (Or.inr rfl)) (by decide)

/-! ### C5: manual and disabled services never appear -/

theorem parse_record_startup (inv : List ProcessRecord) (key : RegKey)
    (h : isRecord (parse_service_key inv key) = true) :
    ∃ s k, dictGet (dict_for_key key) (strLit "Start") = some s ∧ pyInt s = some k ∧
      (k = 0 ∨ k = 1 ∨ k = 2) := by
  rw [parse_service_key] at h
  cases hst : startupOf (dict_for_key key) with
  | exn =>
    simp only [hst, isRecord] at h
    exact Bool.noConfusion h
  | ok k =>
    simp only [hst] at h
    cases hty : typeOf (dict_for_key key) with
    | exn =>
      simp only [hty, isRecord] at h
      exact Bool.noConfusion h
    | ok t =>
      simp only [hty] at h
      by_cases hcond : k = 0 ∨ k = 1 ∨ k = 2
      · rw [startupOf] at hst
        rcases hget : dictGet (dict_for_key key) (strLit "Start") with _ | s
        · simp only [hget] at hst
          injection hst with hk
          rcases hcond with rfl | rfl | rfl <;> exact absurd hk (by decide)
        · simp only [hget] at hst
          rcases hpi : pyInt s with _ | n
          · simp only [hpi] at hst
            cases hst
          · simp only [hpi] at hst
            injection hst with hk
            exact ⟨s, k, rfl, by rw [hpi, hk], hcond⟩
      · rw [if_neg hcond] at h
        simp [isRecord] at h

theorem foldl_servicesStep_mem (inv : List ProcessRecord) (verbose : Bool) :
    ∀ (keys : List RegKey) (init : PyResult (List ServiceRecord)) (l : List ServiceRecord)
      (r : ServiceRecord),
      keys.foldl (servicesStep inv verbose) init = .ok l → r ∈ l →
      (∃ l0, init = .ok l0 ∧ r ∈ l0) ∨
      ∃ key ∈ keys, parse_service_key inv key = .ok (some r) := by
  intro keys
  induction keys with
  | nil =>
    intro init l r h hr
    exact Or.inl ⟨l, by simpa using h, hr⟩
  | cons key keys ih =>
    intro init l r h hr
    rw [List.foldl_cons] at h
    rcases ih _ _ _ h hr with ⟨l0, hstep, hrl0⟩ | ⟨key2, hk2, hp2⟩
    · cases init with
      | exn => simp [servicesStep] at hstep
      | ok l1 =>
        rw [servicesStep] at hstep
        cases hp : parse_service_key inv key with
        | exn =>
          simp only [hp] at hstep
          cases hstep
        | ok o =>
          cases o with
          | none =>
            simp only [hp] at hstep
            injection hstep with he
            exact Or.inl ⟨l1, rfl, he ▸ hrl0⟩
          | some q =>
            simp only [hp] at hstep
            split at hstep
            · injection hstep with he
              rw [← he] at hrl0
              rcases List.mem_append.mp hrl0 with hl | hq
              · exact Or.inl ⟨l1, rfl, hl⟩
              · have hrq : r = q := by simpa using hq
                rw [← hrq] at hp
                exact Or.inr ⟨key, List.mem_cons_self _ _, hp⟩
            · injection hstep with he
              exact Or.inl ⟨l1, rfl, he ▸ hrl0⟩
    · exact Or.inr ⟨key2, List.mem_cons_of_mem _ hk2, hp2⟩

/-- C5: a service whose `Start` data parses to 3 (Manual) or 4 (Disabled)
never yields a record — `parse_service_key` either raises (on other
malformed fields) or returns no record; every record that `parse_service_key`
produces comes from a `Start` value that parses to 0, 1 or 2; and every
record in the `get_services` output was produced by `parse_service_key`. -/
theorem service_manual_disabled_filtered :
    (∀ (inv : List ProcessRecord) (key : RegKey) (s : Str) (k : Int),
        dictGet (dict_for_key key) (strLit "Start") = some s → pyInt s = some k →
        (k = 3 ∨ k = 4) →
        parse_service_key inv key = .exn ∨ parse_service_key inv key = .ok none)
  ∧ (∀ (inv : List ProcessRecord) (key : RegKey),
        isRecord (parse_service_key inv key) = true →
        ∃ s k, dictGet (dict_for_key key) (strLit "Start") = some s ∧ pyInt s = some k ∧
          (k = 0 ∨ k = 1 ∨ k = 2))
  ∧ (∀ (inv : List ProcessRecord) (verbose : Bool) (keys : List RegKey)
        (l : List ServiceRecord) (r : ServiceRecord),
        get_services inv verbose keys = .ok l → r ∈ l →
        ∃ key ∈ keys, parse_service_key inv key = .ok (some r)) := by
  refine ⟨?_, parse_record_startup, ?_⟩
  · intro inv key s k h1 h2 h3
    have hst : startupOf (dict_for_key key) = .ok k := by
      simp only [startupOf, h1, h2]
    cases hty : typeOf (dict_for_key key) with
    | exn =>
      left
      rcases h3 with rfl | rfl <;> simp [parse_service_key, hst, hty]
    | ok t =>
      right
      rcases h3 with rfl | rfl <;> simp [parse_service_key, hst, hty]
  · intro inv verbose keys l r h hr
    rcases foldl_servicesStep_mem inv verbose keys (.ok []) l r h hr with
      ⟨l0, h0, hrl0⟩ | hex
    · injection h0 with he
      rw [← he] at hrl0
      cases hrl0
    · exact hex

/-- C5 (witness): instantiated at a service key with `Start = "3"`. -/
theorem service_manual_disabled_filtered_witness :
    parse_service_key [] svcManualKey = PyResult.exn ∨
    parse_service_key [] svcManualKey = PyResult.ok none :=
  service_manual_disabled_filtered.1 [] svcManualKey (strLit "3") 3
    (by decide) (by decide) (Or.inl rfl)

/-! ### C7: svchost Parameters sub-key supersession -/

/-- C7 (counterexample): for a svchost-hosted service whose `Parameters`
sub-key exists but defines no `ServiceDll`, the record's `last_write_time`
is *still* superseded by the sub-key's time (the code updates the timestamp
as soon as the sub-key is found), refuting "superseded ... exactly when the
Parameters sub-key exists and defines ServiceDll". -/
theorem service_parameters_timestamp_counterexample :
    dictGet (dict_for_key paramsNoDllSub) (strLit "ServiceDll") = none ∧
    recTimestamp (parse_service_key [] svcParamsNoDllKey) = some 200 ∧
    RegKey.lastWriteTime svcParamsNoDllKey = 100 ∧
    (100 : Nat) ≠ 200 := by decide

/-- C7 (amended): for a svchost-hosted service with a `Parameters` sub-key,
the record's `last_write_time` is superseded by the sub-key's time whenever
the sub-key exists (even without `ServiceDll`); the PID-correlation target
becomes the raw `ServiceDll` data exactly when the sub-key defines a
`ServiceDll` whose derived entry text is truthy; and the other fields —
service name, display name, startup kind, service kind, image path — keep
the service key's own values. -/
theorem service_parameters_supersede (inv : List ProcessRecord) (key sub : RegKey)
    (hmark : isSubstr (strLit "svchost.exe -k") (imagePathOf (dict_for_key key)) = true)
    (hsub : findParameters key = some sub)
    (hrec : isRecord (parse_service_key inv key) = true) :
    recTimestamp (parse_service_key inv key) = some sub.lastWriteTime
  ∧ recName (parse_service_key inv key) = some key.name
  ∧ recDisplay (parse_service_key inv key) = some (displayNameOf (dict_for_key key))
  ∧ recImage (parse_service_key inv key) = some (imagePathOf (dict_for_key key))
  ∧ recStartupKind (parse_service_key inv key) =
      (pyToOption (startupOf (dict_for_key key))).bind (intDictGet service_startup)
  ∧ recServiceKind (parse_service_key inv key) =
      (pyToOption (typeOf (dict_for_key key))).bind (intDictGet service_types)
  ∧ recEntry (parse_service_key inv key) = some (svcEntryOf (dict_for_key sub))
  ∧ recPids (parse_service_key inv key) = some (
      match svcEntryOf (dict_for_key sub) with
      | some e =>
        if e = [] then find_pids_for_imagepath inv (imagePathOf (dict_for_key key))
        else find_pids_for_imagepath inv
          ((dictGet (dict_for_key sub) (strLit "ServiceDll")).getD [])
      | none => find_pids_for_imagepath inv (imagePathOf (dict_for_key key))) := by
  have hpsub : svcPsub key = some sub := by
    rw [svcPsub, if_pos hmark, hsub]
  have hparams : svcParams key = dict_for_key sub := by
    rw [svcParams, hpsub]
  have hts : svcTimestamp key = sub.lastWriteTime := by
    rw [svcTimestamp, hpsub]
  cases hst : startupOf (dict_for_key key) with
  | exn =>
    rw [parse_service_key] at hrec
    simp only [hst, isRecord] at hrec
    exact Bool.noConfusion hrec
  | ok k =>
    cases hty : typeOf (dict_for_key key) with
    | exn =>
      rw [parse_service_key] at hrec
      simp only [hst, hty, isRecord] at hrec
      exact Bool.noConfusion hrec
    | ok t =>
      by_cases hcond : k = 0 ∨ k = 1 ∨ k = 2
      · cases hsk : intDictGet service_startup k with
        | none =>
          rw [parse_service_key] at hrec
          simp only [hst, hty, if_pos hcond, hsk, isRecord] at hrec
          exact Bool.noConfusion hrec
        | some sk =>
          cases htk : intDictGet service_types t with
          | none =>
            rw [parse_service_key] at hrec
            simp only [hst, hty, if_pos hcond, hsk, htk, isRecord] at hrec
            exact Bool.noConfusion hrec
          | some tk =>
            have hval : parse_service_key inv key =
                .ok (some ⟨key.name, svcTimestamp key, displayNameOf (dict_for_key key),
                           sk, tk, imagePathOf (dict_for_key key),
                           svcEntryOf (svcParams key), svcPids inv key⟩) := by
              rw [parse_service_key]
              simp only [hst, hty, if_pos hcond, hsk, htk]
            rw [hval]
            simp only [recTimestamp, recName, recDisplay, recImage, recStartupKind,
              recServiceKind, recEntry, recPids, hts, hparams]
            refine ⟨trivial, trivial, trivial, trivial, ?_, ?_, trivial, ?_⟩
            · simp [pyToOption, hsk]
            · simp [pyToOption, htk]
            · rw [svcPids, hparams]
      · rw [parse_service_key] at hrec
        simp only [hst, hty, if_neg hcond, isRecord] at hrec
        exact Bool.noConfusion hrec

/-- C7 (witness): instantiated at a svchost-hosted service whose
`Parameters` sub-key defines `ServiceDll`. -/
theorem service_parameters_supersede_witness :
    recTimestamp (parse_service_key [] svcParamsDllKey) =
      some (RegKey.lastWriteTime paramsDllSub) :=
  (service_parameters_supersede [] svcParamsDllKey paramsDllSub
    (by decide) (by rfl) (by decide)).1

/-! ### C10: the Winlogon notify DllName lookup -/

theorem loopDllName_eq_getLast (d : Dict) :
    loopDllName d =
      ((d.filter (fun p => decide (pyLower p.1 = strLit "dllname"))).getLast?).map
        (fun p => p.2) := by
  induction d using List.reverseRecOn with
  | nil => rfl
  | append_singleton l p ih =>
    rw [loopDllName, List.foldl_append]
    simp only [List.foldl_cons, List.foldl_nil]
    rw [← loopDllName, List.filter_append]
    by_cases hp : pyLower p.1 = strLit "dllname"
    · simp [hp, List.getLast?_concat]
    · simp [hp, ih]

theorem exists_dictInsert (P : Str → Prop) [DecidablePred P] (d : Dict) (k v : Str) :
    (∃ p ∈ dictInsert d k v, P p.1) ↔ (∃ p ∈ d, P p.1) ∨ P k := by
  rw [dictInsert]
  by_cases hk : dictHasKey d k = true
  · rw [if_pos hk]
    rcases List.any_eq_true.mp hk with ⟨q, hq, hqe⟩
    have hqk : q.1 = k := of_decide_eq_true hqe
    constructor
    · rintro ⟨p, hp, hP⟩
      rcases List.mem_map.mp hp with ⟨q2, hq2, rfl⟩
      by_cases h2 : q2.1 = k
      · right
        simpa [h2] using hP
      · left
        exact ⟨q2, hq2, by simpa [h2] using hP⟩
    · rintro (⟨p, hp, hP⟩ | hPk)
      · by_cases h2 : p.1 = k
        · refine ⟨(k, v), List.mem_map.mpr ⟨p, hp, by simp [h2]⟩, ?_⟩
          exact h2 ▸ hP
        · exact ⟨p, List.mem_map.mpr ⟨p, hp, by simp [h2]⟩, hP⟩
      · exact ⟨(k, v), List.mem_map.mpr ⟨q, hq, by simp [hqk]⟩, hPk⟩
  · rw [if_neg hk]
    constructor
    · rintro ⟨p, hp, hP⟩
      rcases List.mem_append.mp hp with h | h
      · exact Or.inl ⟨p, h, hP⟩
      · have hpk : p = (k, v) := by simpa using h
        subst hpk
        exact Or.inr hP
    · rintro (⟨p, hp, hP⟩ | hPk)
      · exact ⟨p, List.mem_append.mpr (Or.inl hp), hP⟩
      · exact ⟨(k, v), List.mem_append.mpr (Or.inr (by simp)), hPk⟩

theorem exists_dict_foldl (P : Str → Prop) [DecidablePred P] :
    ∀ (l : List (Str × Str)) (d0 : Dict),
      (∃ p ∈ l.foldl (fun d q => dictInsert d q.1 q.2) d0, P p.1) ↔
      (∃ p ∈ d0, P p.1) ∨ (∃ p ∈ l, P p.1) := by
  intro l
  induction l with
  | nil =>
    intro d0
    simp
  | cons q l ih =>
    intro d0
    rw [List.foldl_cons, ih, exists_dictInsert]
    constructor
    · rintro ((h | h) | ⟨p, hp, hP⟩)
      · exact Or.inl h
      · exact Or.inr ⟨q, List.mem_cons_self _ _, h⟩
      · exact Or.inr ⟨p, List.mem_cons_of_mem _ hp, hP⟩
    · rintro (h | ⟨p, hp, hP⟩)
      · exact Or.inl (Or.inl h)
      · rcases List.mem_cons.mp hp with rfl | hmem
        · exact Or.inl (Or.inr hP)
        · exact Or.inr ⟨p, hmem, hP⟩

theorem exists_dict_for_key (P : Str → Prop) [DecidablePred P] (key : RegKey) :
    (∃ p ∈ dict_for_key key, P p.1) ↔ ∃ p ∈ key.values, P p.1 := by
  rw [dict_for_key, exists_dict_foldl]
  simp

/-- C10: `parse_winlogon_registration_key` raises (unbound `dllname`) on a
subkey with no value whose name lower-cases to `dllname`; it returns a
record when such a value exists; and on success the dll path is the
NUL-stripped data of the *last* enumerated dict entry whose name
lower-cases to `dllname`. -/
theorem winlogon_notify_dllname :
    (∀ (inv : List ProcessRecord) (key : RegKey),
        (¬ ∃ p ∈ key.values, pyLower p.1 = strLit "dllname") →
        parse_winlogon_registration_key inv key = .exn)
  ∧ (∀ (inv : List ProcessRecord) (key : RegKey),
        (∃ p ∈ key.values, pyLower p.1 = strLit "dllname") →
        ∃ r, parse_winlogon_registration_key inv key = .ok r)
  ∧ (∀ (inv : List ProcessRecord) (key : RegKey) (r : WinlogonRegistration),
        parse_winlogon_registration_key inv key = .ok r →
        ∃ n dta,
          ((dict_for_key key).filter
            (fun p => decide (pyLower p.1 = strLit "dllname"))).getLast? = some (n, dta) ∧
          r.dll = removeAll [0] dta) := by
  refine ⟨?_, ?_, ?_⟩
  · intro inv key hno
    have h1 : loopDllName (dict_for_key key) = none := by
      rw [loopDllName_eq_getLast, Option.map_eq_none', List.getLast?_eq_none_iff,
        List.filter_eq_nil_iff]
      intro p hp hP
      exact hno ((exists_dict_for_key (fun n => pyLower n = strLit "dllname") key).mp
        ⟨p, hp, of_decide_eq_true hP⟩)
    rw [parse_winlogon_registration_key, h1]
  · intro inv key hyes
    have hex : ∃ p ∈ dict_for_key key, pyLower p.1 = strLit "dllname" :=
      (exists_dict_for_key (fun n => pyLower n = strLit "dllname") key).mpr hyes
    have hfil : (dict_for_key key).filter
        (fun p => decide (pyLower p.1 = strLit "dllname")) ≠ [] := by
      rcases hex with ⟨p, hp, hP⟩
      intro hnil
      rw [List.filter_eq_nil_iff] at hnil
      exact hnil p hp (decide_eq_true hP)
    obtain ⟨q, hgl⟩ : ∃ q, ((dict_for_key key).filter
        (fun p => decide (pyLower p.1 = strLit "dllname"))).getLast? = some q := by
      cases hgl2 : ((dict_for_key key).filter
          (fun p => decide (pyLower p.1 = strLit "dllname"))).getLast? with
      | none => exact absurd (List.getLast?_eq_none_iff.mp hgl2) hfil
      | some q => exact ⟨q, rfl⟩
    have h1 : loopDllName (dict_for_key key) = some q.2 := by
      rw [loopDllName_eq_getLast, hgl]
      rfl
    exact ⟨_, by rw [parse_winlogon_registration_key, h1]⟩
  · intro inv key r h
    rw [parse_winlogon_registration_key] at h
    cases hl : loopDllName (dict_for_key key) with
    | none =>
      rw [hl] at h
      cases h
    | some dll =>
      rw [hl] at h
      injection h with hr
      rw [loopDllName_eq_getLast] at hl
      rcases Option.map_eq_some'.mp hl with ⟨q, hq, hq2⟩
      exact ⟨q.1, q.2, hq, by rw [← hr, hq2]⟩

/-- C10 (witness): instantiated at a subkey carrying no `DllName` value in
any casing. -/
theorem winlogon_notify_dllname_witness :
    parse_winlogon_registration_key [] notifyNoDllKey = PyResult.exn :=
  winlogon_notify_dllname.1 [] notifyNoDllKey (by decide)

end VolAutoruns
